import Mathlib

/-!
Verification of the PDA-derivation and account-structure resolution engine
of the repository (Anchor program monitor tools).

The definitions below are shallow embeddings of the TypeScript source:

* seed classification and byte encoding inside `derivePdaAddressTool`
  (anchor program tools, part 002, lines 533-558), together with the
  validation helper `isValidSolanaAddress` (utils.ts) and the byte-level
  behaviour of `Buffer.from(-, 'hex')`, `Buffer.from(-, 'utf8')` and
  `new PublicKey(-).toBuffer()` (base58 decoding);
* schema resolution `findTypeDef` / `getFieldsForAccount` (part 002,
  lines 12-25) and the field reads of `analyzeProgram` and
  `listPdaStructures` in anchor-program-monitor.ts;
* the case-insensitive account lookup with its not-found message shared by
  `fetchAccountDataTool`, `fetchAllAccountsTool` and
  `fetchAccountsByFilterTool` (part 002);
* the field filter of `fetchAccountsByFilterTool` (part 002, lines 469-488)
  over decoded JavaScript values;
* the recursive `searchInObject` walk of `searchAccountsByPubkeyTool`
  (part 002, lines 661-685);
* the on-chain existence status assembled by `derivePdaAddressTool`
  (part 002, lines 567-585);
* the byte-size estimator `getFieldSize` (anchor-program-monitor.ts,
  lines 720-758).

JavaScript-specific behaviour (truthiness of empty arrays, the silent
truncation of `Buffer.from(-, 'hex')` on malformed input, `x || default`,
string coercion of objects) is modelled explicitly where the source relies
on it.
-/

/-! ## Byte-level codecs used by seed classification -/

/-- Value of a single hexadecimal digit, `none` for a non-hex character.
Mirrors the character classes accepted by Node's hex decoder. -/
def hexVal (c : Char) : Option Nat :=
  if '0' ≤ c ∧ c ≤ '9' then some (c.toNat - 48)
  else if 'a' ≤ c ∧ c ≤ 'f' then some (c.toNat - 87)
  else if 'A' ≤ c ∧ c ≤ 'F' then some (c.toNat - 55)
  else none

/-- `Buffer.from(s, 'hex')`: decodes complete two-character pairs from the
left and stops silently at the first invalid character or at a trailing
lone character; it never throws. -/
def jsHexDecode : List Char → List Nat
  | c1 :: c2 :: rest =>
    match hexVal c1, hexVal c2 with
    | some h, some l => (16 * h + l) :: jsHexDecode rest
    | _, _ => []
  | _ => []

/-- The base58 alphabet used by `bs58` (Bitcoin alphabet). -/
def base58Alphabet : List Char :=
  "123456789ABCDEFGHJKLMNPQRSTUVWXYZabcdefghijkmnopqrstuvwxyz".data

/-- Index of a character in a character list, `none` when absent. -/
def charIndexIn : List Char → Char → Option Nat
  | [], _ => none
  | d :: ds, c => if d = c then some 0 else (charIndexIn ds c).map (· + 1)

/-- Value of one base58 digit. -/
def base58Val (c : Char) : Option Nat := charIndexIn base58Alphabet c

/-- Little-endian base-256 digits, with a fuel bound on the number of
digits produced; the digit count of `n` never exceeds `n`, so
`natToBytesLE` below is exact for every input. -/
def natToBytesLEFuel : Nat → Nat → List Nat
  | 0, _ => []
  | _, 0 => []
  | fuel + 1, n + 1 => (n + 1) % 256 :: natToBytesLEFuel fuel ((n + 1) / 256)

/-- Little-endian base-256 digits of a natural number (empty for 0). -/
def natToBytesLE (n : Nat) : List Nat := natToBytesLEFuel n n

/-- Big-endian base-256 digits of a natural number. -/
def natToBytesBE (n : Nat) : List Nat := (natToBytesLE n).reverse

/-- Number of leading `1` characters of a base58 string (each encodes one
leading zero byte). -/
def countLeadingOnes : List Char → Nat
  | '1' :: rest => countLeadingOnes rest + 1
  | _ => 0

/-- `bs58.decode` on the character list of a string: `none` when some
character is outside the alphabet, otherwise the decoded bytes with one
leading zero byte per leading `1`. -/
def base58DecodeList (cs : List Char) : Option (List Nat) :=
  if cs.all (fun c => (base58Val c).isSome) then
    some (List.replicate (countLeadingOnes cs) 0 ++
      natToBytesBE (cs.foldl (fun acc c => acc * 58 + (base58Val c).getD 0) 0))
  else none

/-- `bs58.decode` on a string. -/
def base58Decode (s : String) : Option (List Nat) := base58DecodeList s.data

/-- `isValidSolanaAddress` (utils.ts): the length must lie in [32,44] and
`new PublicKey(address)` must succeed, which requires the base58 decode to
yield exactly 32 bytes; every decode failure is `false`, never an
exception. -/
def isValidSolanaAddress (s : String) : Bool :=
  if s.data.length < 32 ∨ 44 < s.data.length then false
  else
    match base58Decode s with
    | some b => b.length == 32
    | none => false

/-- UTF-8 encoding of one code point (as produced by
`Buffer.from(s, 'utf8')`). -/
def utf8EncodeChar (c : Nat) : List Nat :=
  if c < 128 then [c]
  else if c < 2048 then [192 + c / 64, 128 + c % 64]
  else if c < 65536 then [224 + c / 4096, 128 + c / 64 % 64, 128 + c % 64]
  else [240 + c / 262144, 128 + c / 4096 % 64, 128 + c / 64 % 64, 128 + c % 64]

/-- `Buffer.from(s, 'utf8')` as a byte list. -/
def utf8Bytes (s : String) : List Nat :=
  (s.data.map (fun c => utf8EncodeChar c.toNat)).flatten

/-! ## Seed classification (`derivePdaAddressTool`, part 002 lines 533-558) -/

/-- `seed.startsWith('0x')`. -/
def startsWith0x (s : String) : Bool :=
  match s.data with
  | '0' :: 'x' :: _ => true
  | _ => false

/-- The diagnostic tag attached to a classified seed; the source uses the
strings `'Hex'`, `'Pubkey'` and `'String'`. -/
inductive SeedKind where
  | hex
  | pubkey
  | text
deriving DecidableEq, Repr

/-- `new PublicKey(seed).toBuffer()`: the 32 decoded bytes (only reached
after `isValidSolanaAddress` succeeded). -/
def pubkeySeedBytes (s : String) : List Nat := (base58Decode s).getD []

/-- The classification branch of `derivePdaAddressTool`: `0x` prefix wins,
then address shape, then the UTF-8 fallback. -/
def classifySeed (seed : String) : SeedKind × List Nat :=
  if startsWith0x seed then (SeedKind.hex, jsHexDecode (seed.data.drop 2))
  else if isValidSolanaAddress seed then (SeedKind.pubkey, pubkeySeedBytes seed)
  else (SeedKind.text, utf8Bytes seed)

/-- One entry of `processedSeeds`: `{index, originalValue, type, buffer,
length}`. -/
structure ProcessedSeed where
  index : Nat
  originalValue : String
  kind : SeedKind
  bytes : List Nat
  length : Nat
deriving DecidableEq, Repr

/-- The entry built for the seed at position `i`. -/
def mkProcessedSeed (i : Nat) (seed : String) : ProcessedSeed :=
  { index := i
  , originalValue := seed
  , kind := (classifySeed seed).1
  , bytes := (classifySeed seed).2
  , length := (classifySeed seed).2.length }

/-- `seeds.map((seed, index) => ...)` of `derivePdaAddressTool`. -/
def processSeeds (seeds : List String) : List ProcessedSeed :=
  seeds.enum.map (fun p => mkProcessedSeed p.1 p.2)

/-! ## IDL model and schema resolution (part 002 lines 12-25) -/

/-- A field type descriptor of the IDL: a primitive tag string, or an
object carrying a `vec`, `option` or `array` key, or any other object. -/
inductive FieldTy where
  | prim (s : String)
  | vec (t : FieldTy)
  | option (t : FieldTy)
  | array (t : FieldTy) (n : Nat)
  | other
deriving DecidableEq, Repr

/-- One field of an account or shared type declaration. -/
structure IdlField where
  name : String
  ty : FieldTy
deriving DecidableEq, Repr

/-- One entry of the shared type table; `fields` is `none` when
`t.type.fields` is absent (enums, aliases). -/
structure IdlTypeDef where
  name : String
  fields : Option (List IdlField)
deriving DecidableEq, Repr

/-- One account-type declaration; `fields` is `none` when
`acc.type.fields` is absent. -/
structure IdlAccountDecl where
  name : String
  fields : Option (List IdlField)
deriving DecidableEq, Repr

/-- The parts of a fetched IDL these tools read; `none` models an absent
(`undefined`) array, `some []` an empty one (which is truthy in JS). -/
structure Idl where
  accounts : Option (List IdlAccountDecl)
  types : Option (List IdlTypeDef)
deriving DecidableEq, Repr

/-- `findTypeDef` (part 002 line 12): first entry of `idl.types || []`
with the given name. -/
def findTypeDef (idl : Idl) (name : String) : Option IdlTypeDef :=
  (idl.types.getD []).find? (fun t => t.name == name)

/-- `getFieldsForAccount` (part 002 line 16): the inline field list, or,
when it is empty and `idl.types` is present, the same-named shared type's
field list when that type declares one. -/
def getFieldsForAccount (idl : Idl) (acc : IdlAccountDecl) : List IdlField :=
  let fields := acc.fields.getD []
  if fields.isEmpty && idl.types.isSome then
    match findTypeDef idl acc.name with
    | some t =>
      match t.fields with
      | some fl => fl
      | none => fields
    | none => fields
  else fields

/-- The field list `analyzeProgram` in anchor-program-monitor.ts (line
246) reads for a PDA account entry: `acc.type?.fields || []`, with no
shared-type fallback. -/
def analyzeProgram_pdaFields (acc : IdlAccountDecl) : List IdlField :=
  acc.fields.getD []

/-- The field count `listPdaStructures` in anchor-program-monitor.ts
(line 577) reports: `acc.type?.fields?.length || 0`, with no shared-type
fallback. -/
def listPdaStructures_fieldCount (acc : IdlAccountDecl) : Nat :=
  (acc.fields.getD []).length

/-- Account declaration with no inline fields whose schema lives in the
shared type table: exercises the fallback divergence between tools. -/
def demoAccountDecl : IdlAccountDecl :=
  { name := "Foo", fields := none }

/-- The shared-type field backing `demoAccountDecl`. -/
def demoSharedField : IdlField :=
  { name := "bar", ty := FieldTy.prim "u64" }

/-- IDL holding `demoAccountDecl` and its same-named shared type. -/
def demoIdl : Idl :=
  { accounts := some [demoAccountDecl]
  , types := some [{ name := "Foo", fields := some [demoSharedField] }] }

/-! ## Size estimation (`getFieldSize`, anchor-program-monitor.ts 720-758) -/

/-- The `switch` of `getFieldSize` over primitive tag strings, as the
case table it reads. -/
def primSizeTable : List (String × Nat) :=
  [("bool", 1), ("u8", 1), ("i8", 1), ("u16", 2), ("i16", 2),
   ("u32", 4), ("i32", 4), ("u64", 8), ("i64", 8), ("u128", 16),
   ("i128", 16), ("f32", 4), ("f64", 8), ("publicKey", 32),
   ("string", 32)]

/-- The `switch` of `getFieldSize`: the matching case's size, `default`
8 otherwise. -/
def getFieldSizePrim (s : String) : Nat :=
  ((primSizeTable.find? (fun p => p.1 == s)).map (fun p => p.2)).getD 8

/-- The primitive tags the `switch` recognizes. -/
def primSizeNames : List String := primSizeTable.map (fun p => p.1)

/-- `getFieldSize`: total on every descriptor; `fieldType.array[1] || 1`
turns a zero (or absent) array length into 1. -/
def getFieldSize : FieldTy → Nat
  | FieldTy.prim s => getFieldSizePrim s
  | FieldTy.vec _ => 32
  | FieldTy.option t => getFieldSize t + 1
  | FieldTy.array t n => getFieldSize t * (if n = 0 then 1 else n)
  | FieldTy.other => 8

/-! ## Case-insensitive account lookup (part 002, tools 4, 5 and 6) -/

/-- `name.toLowerCase()` (ASCII names in practice). -/
def jsToLower (s : String) : String := String.mk (s.data.map Char.toLower)

/-- `Array.prototype.join(sep)`. -/
def jsJoin (sep : String) : List String → String
  | [] => ""
  | [x] => x
  | x :: y :: ys => x ++ sep ++ jsJoin sep (y :: ys)

/-- `idl.accounts?.find(acc => acc.name.toLowerCase() ===
accountName.toLowerCase())`, shared verbatim by the three data-fetch
tools. -/
def findAccountStruct (accounts : List IdlAccountDecl) (accountName : String) :
    Option IdlAccountDecl :=
  accounts.find? (fun acc => jsToLower acc.name == jsToLower accountName)

/-- The message of the error thrown when no declaration matches; it joins
every available account-type name. -/
def accountNotFoundMsg (accountName : String) (available : List String) : String :=
  "Account structure \x27" ++ accountName ++
    "\x27 not found in IDL. Available accounts: " ++ jsJoin ", " available

/-- The lookup stage of `fetchAccountDataTool` (part 002 lines 281-293):
the matched declaration, or the not-found error message. -/
def fetchAccountData_lookup (idl : Idl) (accountName : String) :
    Except String IdlAccountDecl :=
  match findAccountStruct (idl.accounts.getD []) accountName with
  | some acc => Except.ok acc
  | none => Except.error
      (accountNotFoundMsg accountName ((idl.accounts.getD []).map (fun a => a.name)))

/-- The lookup stage of `fetchAllAccountsTool` (part 002 lines 356-368),
textually duplicated from the single-fetch tool. -/
def fetchAllAccounts_lookup (idl : Idl) (accountName : String) :
    Except String IdlAccountDecl :=
  match findAccountStruct (idl.accounts.getD []) accountName with
  | some acc => Except.ok acc
  | none => Except.error
      (accountNotFoundMsg accountName ((idl.accounts.getD []).map (fun a => a.name)))

/-- The lookup stage of `fetchAccountsByFilterTool` (part 002 lines
444-456), textually duplicated again. -/
def fetchAccountsByFilter_lookup (idl : Idl) (accountName : String) :
    Except String IdlAccountDecl :=
  match findAccountStruct (idl.accounts.getD []) accountName with
  | some acc => Except.ok acc
  | none => Except.error
      (accountNotFoundMsg accountName ((idl.accounts.getD []).map (fun a => a.name)))

/-! ## Decoded JavaScript values of account records -/

/-- A decoded field value as the filter and search code see it: `null`,
a primitive, a `PublicKey` object (has `toBase58`), a big-number object
(plain `toString`, no nested strings), or a nested plain object or
array. -/
inductive JsVal where
  | null
  | str (s : String)
  | num (n : Int)
  | bool (b : Bool)
  | pubkey (base58 : String)
  | bn (value : Int)
  | obj (fields : List (String × JsVal))
  | arr (elems : List JsVal)

mutual

/-- `fieldValue.toString()` as JavaScript computes it on a decoded value:
primitives print themselves, `PublicKey` prints its base58 form, big
numbers print their decimal form, plain objects print
`[object Object]`, arrays join their elements with commas. -/
def jsValToString : JsVal → String
  | JsVal.null => "null"
  | JsVal.str s => s
  | JsVal.num n => toString n
  | JsVal.bool b => if b then "true" else "false"
  | JsVal.pubkey b => b
  | JsVal.bn v => toString v
  | JsVal.obj _ => "[object Object]"
  | JsVal.arr elems => jsArrToString elems

/-- `Array.prototype.toString`: elements joined with commas, a `null`
element printing as the empty string. -/
def jsArrToString : List JsVal → String
  | [] => ""
  | [JsVal.null] => ""
  | [v] => jsValToString v
  | JsVal.null :: v :: rest => "," ++ jsArrToString (v :: rest)
  | u :: v :: rest => jsValToString u ++ "," ++ jsArrToString (v :: rest)

end

/-- The filter value union `string | number | boolean`. -/
inductive FilterVal where
  | str (s : String)
  | num (n : Int)
  | bool (b : Bool)

/-- One entry of the `filters` array: `{field, value}`. -/
structure FieldFilter where
  field : String
  value : FilterVal

/-- `filter.value.toString()`. -/
def filterValToString : FilterVal → String
  | FilterVal.str s => s
  | FilterVal.num n => toString n
  | FilterVal.bool b => if b then "true" else "false"

/-- `acc.account[filter.field]`: the first binding of the decoded record,
`none` when the property is absent (`undefined`). -/
def lookupField (record : List (String × JsVal)) (name : String) : Option JsVal :=
  (record.find? (fun p => p.1 == name)).map (fun p => p.2)

/-- The filter predicate of `fetchAccountsByFilterTool` (part 002 lines
470-487): an absent field never matches; a `PublicKey` compares its
base58 text against the filter value under strict equality; any other
object compares `toString()` forms; primitives compare under strict
equality (which is false across types). -/
def matchesFilter (record : List (String × JsVal)) (f : FieldFilter) : Bool :=
  match lookupField record f.field with
  | none => false
  | some (JsVal.pubkey b) =>
    match f.value with
    | FilterVal.str s => b == s
    | _ => false
  | some (JsVal.obj fields) =>
    jsValToString (JsVal.obj fields) == filterValToString f.value
  | some (JsVal.arr elems) =>
    jsValToString (JsVal.arr elems) == filterValToString f.value
  | some (JsVal.bn v) =>
    jsValToString (JsVal.bn v) == filterValToString f.value
  | some (JsVal.str s) =>
    match f.value with
    | FilterVal.str s2 => s == s2
    | _ => false
  | some (JsVal.num n) =>
    match f.value with
    | FilterVal.num m => n == m
    | _ => false
  | some (JsVal.bool b) =>
    match f.value with
    | FilterVal.bool c => b == c
    | _ => false
  | some JsVal.null => false

/-- One fetched account as `program.account.<t>.all()` returns it:
`{publicKey, account}`. -/
structure AccountEntry where
  publicKey : String
  account : List (String × JsVal)

/-- `allAccounts.filter(acc => filters.every(...))` of
`fetchAccountsByFilterTool`. -/
def filterAccounts (accounts : List AccountEntry) (filters : List FieldFilter) :
    List AccountEntry :=
  accounts.filter (fun acc => filters.all (fun f => matchesFilter acc.account f))

/-- The `accounts` slice of the tool's result:
`filteredAccounts.slice(0, limit)`. -/
def fetchAccountsByFilter_result (accounts : List AccountEntry)
    (filters : List FieldFilter) (limit : Nat) : List AccountEntry :=
  (filterAccounts accounts filters).take limit

/-! ## Recursive pubkey search (`searchAccountsByPubkeyTool`, part 002
lines 661-685) -/

mutual

/-- `searchInObject` of `searchAccountsByPubkeyTool`: a `PublicKey`
matches by base58 text, a string by equality, an object or array is
walked recursively through all its values (with no depth cap), and
anything else does not match. A big-number object is walked through its
numeric internals, which contain no match. -/
def searchInObject (targetPubkey : String) : JsVal → Bool
  | JsVal.pubkey b => b == targetPubkey
  | JsVal.str s => s == targetPubkey
  | JsVal.obj fields => searchInFields targetPubkey fields
  | JsVal.arr elems => searchInElems targetPubkey elems
  | JsVal.bn _ => false
  | JsVal.null => false
  | JsVal.num _ => false
  | JsVal.bool _ => false

/-- `Object.values(obj).some(searchInObject)` over an object's bindings. -/
def searchInFields (targetPubkey : String) : List (String × JsVal) → Bool
  | [] => false
  | (_, v) :: rest =>
    searchInObject targetPubkey v || searchInFields targetPubkey rest

/-- `Object.values(arr).some(searchInObject)` over an array's elements. -/
def searchInElems (targetPubkey : String) : List JsVal → Bool
  | [] => false
  | v :: rest => searchInObject targetPubkey v || searchInElems targetPubkey rest

end

/-- `allAccounts.filter(acc => searchInObject(acc.account))`. -/
def searchAccountsByPubkey (accounts : List AccountEntry) (targetPubkey : String) :
    List AccountEntry :=
  accounts.filter (fun acc => searchInObject targetPubkey (JsVal.obj acc.account))

/-- A decoded value nesting the target string below `n` object layers. -/
def objNest (target : String) : Nat → JsVal
  | 0 => JsVal.str target
  | n + 1 => JsVal.obj [("f", objNest target n)]

/-! ## On-chain existence status (`derivePdaAddressTool`, part 002 lines
567-585) -/

/-- A JSON field that is either a string or `null`; the source's
`onChainStatus.owner` is always a string, the spec expects `null` for a
missing account. -/
inductive JsStrOrNull where
  | str (s : String)
  | null
deriving DecidableEq, Repr

/-- What `connection.getAccountInfo` returns for an existing account. -/
structure JsAccountInfo where
  lamports : Nat
  dataLen : Nat
  ownerBase58 : String
deriving DecidableEq, Repr

/-- The `onChainStatus` object of the derive tool's result. -/
structure OnChainStatus where
  accountExists : Bool
  lamports : Nat
  dataSize : Nat
  owner : JsStrOrNull
deriving DecidableEq, Repr

/-- Assembly of `onChainStatus` from `accountInfo` (part 002 lines
580-585): `exists: accountInfo !== null`, `lamports` and `dataSize`
defaulting to 0, and `owner` defaulting to the string `No owner` through
`|| 'No owner'`. -/
def mkOnChainStatus (info : Option JsAccountInfo) : OnChainStatus :=
  { accountExists := info.isSome
  , lamports :=
      match info with
      | some i => i.lamports
      | none => 0
  , dataSize :=
      match info with
      | some i => i.dataLen
      | none => 0
  , owner :=
      JsStrOrNull.str
        (match info with
         | some i => i.ownerBase58
         | none => "No owner") }

/-- The existence check after derivation: a completed RPC call (even one
returning no account) flows into `mkOnChainStatus`; a thrown RPC error
propagates to the tool's catch clause instead. -/
def checkExistence (rpc : Except String (Option JsAccountInfo)) :
    Except String OnChainStatus :=
  rpc.map mkOnChainStatus

/-- Modelled from the spec: the result the spec's existence-semantics
sentence expects for an address with no on-chain data, with `owner`
equal to JSON `null`. -/
def checkExistenceSpecMissing : OnChainStatus :=
  { accountExists := false
  , lamports := 0
  , dataSize := 0
  , owner := JsStrOrNull.null }

/-! ## Concrete inputs used by the witnesses -/

/-- An IDL with a single account type, for exercising the
case-insensitive lookup. -/
def demoIdl5 : Idl :=
  { accounts := some [{ name := "SmartWalletConfig", fields := none }]
  , types := none }

/-- A fetched account entry with two decoded fields. -/
def demoEntry : AccountEntry :=
  { publicKey := "pk"
  , account := [("owner", JsVal.str "alice"), ("active", JsVal.bool true)] }

/-- A filter matching `demoEntry` on its owner field. -/
def demoFilter : FieldFilter :=
  { field := "owner", value := FilterVal.str "alice" }

/-! ## Helper lemmas -/

/-- A successful validation forces the decoded seed bytes to have length
exactly 32. -/
theorem valid_pubkeySeedBytes_length {s : String}
    (h : isValidSolanaAddress s = true) : (pubkeySeedBytes s).length = 32 := by
  unfold isValidSolanaAddress at h
  split at h
  · exact absurd h (by simp)
  · revert h
    cases hb : base58Decode s with
    | none => simp
    | some b =>
      intro h
      simpa [pubkeySeedBytes, hb] using h

/-- Indexing into `processSeeds`: position `i` holds exactly the entry
built from the input seed at position `i`. -/
theorem processSeeds_getElem? (seeds : List String) (i : Nat) :
    (processSeeds seeds)[i]? = (seeds[i]?).map (fun s => mkProcessedSeed i s) := by
  simp only [processSeeds, List.getElem?_map, List.getElem?_enum, Option.map_map]
  rfl

/-- C1. Seed classification of `derivePdaAddressTool`: every seed is
classified by the priority hex-prefix, then address shape, then text; an
address seed encodes to its raw 32 bytes; the output list is index-aligned
with the input list (same length, same order, no deduplication). -/
theorem seedClassification_priority_and_order :
    (∀ seeds : List String, (processSeeds seeds).length = seeds.length)
  ∧ (∀ (seeds : List String) (i : Nat),
      (processSeeds seeds)[i]? = (seeds[i]?).map (fun s => mkProcessedSeed i s))
  ∧ (∀ s : String, startsWith0x s = true →
      classifySeed s = (SeedKind.hex, jsHexDecode (s.data.drop 2)))
  ∧ (∀ s : String, startsWith0x s = false → isValidSolanaAddress s = true →
      classifySeed s = (SeedKind.pubkey, pubkeySeedBytes s) ∧
        (pubkeySeedBytes s).length = 32)
  ∧ (∀ s : String, startsWith0x s = false → isValidSolanaAddress s = false →
      classifySeed s = (SeedKind.text, utf8Bytes s)) := by
  refine ⟨?_, ?_, ?_, ?_, ?_⟩
  · intro seeds
    simp [processSeeds]
  · exact processSeeds_getElem?
  · intro s h
    simp [classifySeed, h]
  · intro s h0 h1
    exact ⟨by simp [classifySeed, h0, h1], valid_pubkeySeedBytes_length h1⟩
  · intro s h0 h1
    simp [classifySeed, h0, h1]

/-- C4 counterexample. The seed `0xzz` starts with `0x` and its remainder
is not valid hex, yet classification does not fail: it succeeds as a hex
seed with an empty byte buffer; `0xabc` likewise silently drops the
trailing lone nibble. -/
theorem hexSeed_silent_coerce_counterexample :
    startsWith0x "0xzz" = true
  ∧ hexVal 'z' = none
  ∧ classifySeed "0xzz" = (SeedKind.hex, [])
  ∧ classifySeed "0xabc" = (SeedKind.hex, [171]) := by decide

/-- C4 amended. A `0x`-prefixed seed never produces an error: it is always
classified Hex with the bytes Node's hex decoder yields, which stops at
the first invalid pair or trailing lone character and silently drops the
rest. -/
theorem hexSeed_silent_decode :
    (∀ s : String, startsWith0x s = true →
      classifySeed s = (SeedKind.hex, jsHexDecode (s.data.drop 2)))
  ∧ (∀ (c1 c2 : Char) (rest : List Char), (hexVal c1 = none ∨ hexVal c2 = none) →
      jsHexDecode (c1 :: c2 :: rest) = [])
  ∧ (∀ c : Char, jsHexDecode [c] = [])
  ∧ jsHexDecode "zz".data = [] := by
  refine ⟨?_, ?_, ?_, by decide⟩
  · intro s h
    simp [classifySeed, h]
  · intro c1 c2 rest h
    rcases h with h | h <;>
      · unfold jsHexDecode
        cases h1 : hexVal c1 <;> cases h2 : hexVal c2 <;> simp_all
  · intro c
    rfl

/-- C9 counterexample. A fixed array of length 0 is estimated at
`estimate(T) * 1`, not `estimate(T) * 0`: the source computes
`getFieldSize(array[0]) * (array[1] || 1)` and `0` is falsy. -/
theorem getFieldSize_array_zero_counterexample :
    getFieldSize (FieldTy.array (FieldTy.prim "u8") 0) = 1
  ∧ getFieldSize (FieldTy.prim "u8") * 0 = 0 := by decide

/-- C9 amended. The size estimator is total (always yields a positive
estimate), satisfies the table equations, multiplies array lengths only
for nonzero length (zero length degrades to 1), and yields the default 8
on every unrecognized descriptor. -/
theorem getFieldSize_table :
    getFieldSize (FieldTy.prim "u64") = 8
  ∧ getFieldSize (FieldTy.array (FieldTy.prim "u8") 33) = 33
  ∧ getFieldSize (FieldTy.option (FieldTy.prim "u32")) = 5
  ∧ (∀ t, getFieldSize (FieldTy.option t) = getFieldSize t + 1)
  ∧ (∀ (t : FieldTy) (n : Nat), n ≠ 0 →
      getFieldSize (FieldTy.array t n) = getFieldSize t * n)
  ∧ (∀ t, getFieldSize (FieldTy.array t 0) = getFieldSize t)
  ∧ (∀ s : String, s ∉ primSizeNames → getFieldSize (FieldTy.prim s) = 8)
  ∧ getFieldSize FieldTy.other = 8
  ∧ (∀ t, 0 < getFieldSize t) := by
  refine ⟨by decide, by decide, by decide, ?_, ?_, ?_, ?_, rfl, ?_⟩
  · intro t
    rfl
  · intro t n h
    simp [getFieldSize, h]
  · intro t
    simp [getFieldSize]
  · intro s h
    have hfind : primSizeTable.find? (fun p => p.1 == s) = none := by
      rw [List.find?_eq_none]
      intro p hp hbeq
      exact h (List.mem_map.mpr ⟨p, hp, (eq_of_beq hbeq).symm ▸ rfl⟩)
    show getFieldSizePrim s = 8
    rw [getFieldSizePrim, hfind]
    rfl
  · intro t
    induction t with
    | prim s =>
      show 0 < getFieldSizePrim s
      rw [getFieldSizePrim]
      cases hfind : primSizeTable.find? (fun p => p.1 == s) with
      | none => decide
      | some p =>
        have hp := List.mem_of_find?_eq_some hfind
        have hpos : ∀ q ∈ primSizeTable, 0 < q.2 := by decide
        simpa using hpos p hp
    | vec t ih => exact Nat.zero_lt_succ _
    | option t ih =>
      show 0 < getFieldSize t + 1
      omega
    | array t n ih =>
      show 0 < getFieldSize t * (if n = 0 then 1 else n)
      rcases Nat.eq_zero_or_pos n with h | h
      · simpa [h] using ih
      · have hne : ¬ n = 0 := by omega
        simp only [hne, if_false]
        exact Nat.mul_pos ih h
    | other => exact Nat.zero_lt_succ _

/-- A successful shared-type lookup forces the type table to be present. -/
theorem findTypeDef_types_isSome {idl : Idl} {n : String} {t : IdlTypeDef}
    (h : findTypeDef idl n = some t) : idl.types.isSome = true := by
  cases hty : idl.types with
  | none =>
    unfold findTypeDef at h
    rw [hty] at h
    simp at h
  | some l => simp

/-- C2. `getFieldsForAccount`: with an empty or absent inline field list
and a same-named shared type declaring fields, exactly those fields are
returned; a non-empty inline list is returned unchanged. -/
theorem resolveFields_fallback :
    (∀ (idl : Idl) (acc : IdlAccountDecl) (t : IdlTypeDef) (fl : List IdlField),
      (acc.fields = none ∨ acc.fields = some []) →
      findTypeDef idl acc.name = some t → t.fields = some fl →
      getFieldsForAccount idl acc = fl)
  ∧ (∀ (idl : Idl) (acc : IdlAccountDecl) (fl : List IdlField),
      acc.fields = some fl → fl ≠ [] → getFieldsForAccount idl acc = fl) := by
  constructor
  · intro idl acc t fl h1 h2 h3
    have hsome := findTypeDef_types_isSome h2
    rcases h1 with h | h <;> simp [getFieldsForAccount, h, hsome, h2, h3]
  · intro idl acc fl h1 h2
    cases fl with
    | nil => exact absurd rfl h2
    | cons a as => simp [getFieldsForAccount, h1]

/-- C3 divergence witnessed on a concrete IDL: the standalone tools
resolve the shared-type fallback and see one field, while the grouped
monitor's analyze and list-pdas paths read only the inline field list and
report zero fields for the same account type. -/
theorem fields_fallback_inconsistency :
    demoIdl.accounts = some [demoAccountDecl]
  ∧ getFieldsForAccount demoIdl demoAccountDecl = [demoSharedField]
  ∧ (getFieldsForAccount demoIdl demoAccountDecl).length = 1
  ∧ analyzeProgram_pdaFields demoAccountDecl = []
  ∧ listPdaStructures_fieldCount demoAccountDecl = 0 := by decide

/-- String append concatenates the underlying character lists. -/
theorem string_append_data (a b : String) : (a ++ b).data = a.data ++ b.data := by
  cases a
  cases b
  rfl

/-- Every element of a joined list occurs inside the joined string. -/
theorem jsJoin_mem_infix (sep : String) :
    ∀ (l : List String) (s : String), s ∈ l → s.data <:+: (jsJoin sep l).data := by
  intro l
  induction l with
  | nil =>
    intro s h
    cases h
  | cons x xs ih =>
    intro s h
    cases xs with
    | nil =>
      have hx : s = x := by simpa using h
      exact hx ▸ List.infix_refl _
    | cons y ys =>
      rcases List.mem_cons.mp h with hx | hmem
      · refine ⟨[], (sep.data ++ (jsJoin sep (y :: ys)).data), ?_⟩
        simp [jsJoin, string_append_data, hx]
      · obtain ⟨u, v, huv⟩ := ih s hmem
        refine ⟨(x ++ sep).data ++ u, v, ?_⟩
        simp only [jsJoin, string_append_data, List.append_assoc]
        rw [← List.append_assoc u, huv]

/-- Core facts about one copy of the duplicated lookup: a case-insensitive
match resolves, and a miss produces the enumerating error message. -/
theorem lookup_spec (idl : Idl) (accountName : String) :
    ((∃ acc, acc ∈ idl.accounts.getD [] ∧ jsToLower acc.name = jsToLower accountName) →
      ∃ acc, fetchAccountData_lookup idl accountName = Except.ok acc ∧
        jsToLower acc.name = jsToLower accountName)
  ∧ ((∀ acc, acc ∈ idl.accounts.getD [] → jsToLower acc.name ≠ jsToLower accountName) →
      ∃ msg, fetchAccountData_lookup idl accountName = Except.error msg ∧
        ∀ acc, acc ∈ idl.accounts.getD [] → acc.name.data <:+: msg.data) := by
  constructor
  · rintro ⟨acc, hmem, hlow⟩
    cases hfind : findAccountStruct (idl.accounts.getD []) accountName with
    | none =>
      rw [findAccountStruct, List.find?_eq_none] at hfind
      exact absurd (by simpa using hlow) (by simpa using hfind acc hmem)
    | some acc2 =>
      rw [findAccountStruct] at hfind
      have hp := List.find?_some hfind
      refine ⟨acc2, ?_, by simpa using hp⟩
      rw [fetchAccountData_lookup, findAccountStruct, hfind]
  · intro hnone
    have hfind : findAccountStruct (idl.accounts.getD []) accountName = none := by
      rw [findAccountStruct, List.find?_eq_none]
      intro acc hmem hbeq
      exact hnone acc hmem (by simpa using hbeq)
    refine ⟨_, by rw [fetchAccountData_lookup, hfind], ?_⟩
    intro acc hmem
    have hmemname : acc.name ∈ (idl.accounts.getD []).map (fun a => a.name) :=
      List.mem_map.mpr ⟨acc, hmem, rfl⟩
    have hinf := jsJoin_mem_infix ", " _ _ hmemname
    obtain ⟨u, v, huv⟩ := hinf
    refine ⟨("Account structure \x27" ++ accountName ++
      "\x27 not found in IDL. Available accounts: ").data ++ u, v, ?_⟩
    simp only [accountNotFoundMsg, string_append_data, List.append_assoc]
    rw [← List.append_assoc u, huv]

/-- C5. All three data-fetch tools resolve the account-type name
case-insensitively, and on a miss each fails with a message containing
every declared account-type name. -/
theorem accountLookup_caseInsensitive_and_enumerates :
    (∀ (idl : Idl) (accountName : String),
      ((∃ acc, acc ∈ idl.accounts.getD [] ∧ jsToLower acc.name = jsToLower accountName) →
        ∃ acc, fetchAccountData_lookup idl accountName = Except.ok acc ∧
          jsToLower acc.name = jsToLower accountName)
      ∧ ((∀ acc, acc ∈ idl.accounts.getD [] → jsToLower acc.name ≠ jsToLower accountName) →
        ∃ msg, fetchAccountData_lookup idl accountName = Except.error msg ∧
          ∀ acc, acc ∈ idl.accounts.getD [] → acc.name.data <:+: msg.data))
  ∧ (∀ (idl : Idl) (accountName : String),
      fetchAllAccounts_lookup idl accountName = fetchAccountData_lookup idl accountName)
  ∧ (∀ (idl : Idl) (accountName : String),
      fetchAccountsByFilter_lookup idl accountName = fetchAccountData_lookup idl accountName) := by
  exact ⟨lookup_spec, fun _ _ => rfl, fun _ _ => rfl⟩

/-- C6. The field filter has conjunction semantics: a record survives
exactly when it was fetched and every filter predicate matches it, and an
empty filter list keeps every record (the final slice then applies the
limit). -/
theorem filterByFields_conjunction :
    (∀ (accounts : List AccountEntry) (filters : List FieldFilter) (a : AccountEntry),
      a ∈ filterAccounts accounts filters ↔
        (a ∈ accounts ∧ ∀ f, f ∈ filters → matchesFilter a.account f = true))
  ∧ (∀ accounts : List AccountEntry, filterAccounts accounts [] = accounts)
  ∧ (∀ (accounts : List AccountEntry) (limit : Nat),
      fetchAccountsByFilter_result accounts [] limit = accounts.take limit) := by
  refine ⟨?_, ?_, ?_⟩
  · intro accounts filters a
    simp [filterAccounts, List.mem_filter, List.all_eq_true]
  · intro accounts
    simp [filterAccounts]
  · intro accounts limit
    simp [fetchAccountsByFilter_result, filterAccounts]

/-- C10. A record whose decoded data lacks the filter's field name never
matches that filter, and is excluded whenever that filter is among the
applied filters; no error is involved. -/
theorem filter_missingField_excluded :
    (∀ (record : List (String × JsVal)) (f : FieldFilter),
      lookupField record f.field = none → matchesFilter record f = false)
  ∧ (∀ (accounts : List AccountEntry) (filters : List FieldFilter)
      (f : FieldFilter) (a : AccountEntry), f ∈ filters →
      lookupField a.account f.field = none →
      a ∉ filterAccounts accounts filters) := by
  have h1 : ∀ (record : List (String × JsVal)) (f : FieldFilter),
      lookupField record f.field = none → matchesFilter record f = false := by
    intro record f h
    simp [matchesFilter, h]
  refine ⟨h1, ?_⟩
  intro accounts filters f a hf hnone hmem
  rw [filterAccounts, List.mem_filter] at hmem
  have hall := List.all_eq_true.mp hmem.2 f hf
  rw [h1 a.account f hnone] at hall
  exact absurd hall (by simp)

/-- C7. The recursive walk reaches a match below any number of object
layers: recursion depth is unbounded, so no depth cap exists (a cap at
depth d would miss the match below d+1 layers); termination on the
embedded finite values is structural, not cap-enforced. -/
theorem searchInObject_unbounded_depth :
    ∀ (target : String) (n : Nat),
      searchInObject target (objNest target n) = true := by
  intro target n
  induction n with
  | zero => simp [objNest, searchInObject]
  | succ n ih => simp [objNest, searchInObject, searchInFields, ih]

/-- C8 counterexample. For an address with no on-chain data the tool
succeeds, but its status object carries the string `No owner`, not JSON
`null`, in the owner field. -/
theorem checkExistence_owner_counterexample :
    checkExistence (Except.ok none) = Except.ok (mkOnChainStatus none)
  ∧ mkOnChainStatus none ≠ checkExistenceSpecMissing
  ∧ (mkOnChainStatus none).owner = JsStrOrNull.str "No owner" :=
  ⟨rfl, by decide, rfl⟩

/-- C8 amended. A completed lookup finding no account is a success with
`exists:false, lamports:0, dataSize:0` and the placeholder owner string
`No owner`; an existing account reports its own data; a thrown RPC error
propagates as an error, distinct from the missing-account success. -/
theorem checkExistence_missing_account :
    checkExistence (Except.ok none) =
      Except.ok { accountExists := false, lamports := 0, dataSize := 0,
                  owner := JsStrOrNull.str "No owner" }
  ∧ (∀ i : JsAccountInfo, checkExistence (Except.ok (some i)) =
      Except.ok { accountExists := true, lamports := i.lamports,
                  dataSize := i.dataLen, owner := JsStrOrNull.str i.ownerBase58 })
  ∧ (∀ e : String, checkExistence (Except.error e) = Except.error e) := by
  exact ⟨rfl, fun i => rfl, fun e => rfl⟩


/-! ## Witnesses: the claim theorems instantiated at concrete inputs -/

/-- C1 witness: the three priorities exercised on concrete seeds, with
the address seed encoding to its 32 raw bytes. -/
theorem seedClassification_witness :
    classifySeed "0xdead" = (SeedKind.hex, [222, 173])
  ∧ classifySeed "11111111111111111111111111111111" =
      (SeedKind.pubkey, List.replicate 32 0)
  ∧ (pubkeySeedBytes "11111111111111111111111111111111").length = 32
  ∧ classifySeed "config" = (SeedKind.text, [99, 111, 110, 102, 105, 103]) := by
  obtain ⟨-, -, hhex, hpk, htext⟩ := seedClassification_priority_and_order
  obtain ⟨hpkeq, hpklen⟩ :=
    hpk "11111111111111111111111111111111" (by decide) (by decide)
  refine ⟨?_, ?_, hpklen, ?_⟩
  · rw [hhex "0xdead" (by decide)]
    decide
  · rw [hpkeq]
    decide
  · rw [htext "config" (by decide) (by decide)]
    decide

/-- C2 witness: the fallback fires on the demo IDL, and a non-empty
inline list is kept. -/
theorem resolveFields_witness :
    getFieldsForAccount demoIdl demoAccountDecl = [demoSharedField]
  ∧ getFieldsForAccount demoIdl
      { name := "Foo", fields := some [demoSharedField] } = [demoSharedField] := by
  constructor
  · exact resolveFields_fallback.1 demoIdl demoAccountDecl
      { name := "Foo", fields := some [demoSharedField] } [demoSharedField]
      (Or.inl (by decide)) (by decide) (by decide)
  · exact resolveFields_fallback.2 demoIdl
      { name := "Foo", fields := some [demoSharedField] } [demoSharedField]
      (by decide) (by simp)

/-- C4 witness: the amended behaviour at the malformed seed `0xzz`. -/
theorem hexSeed_silent_decode_witness :
    classifySeed "0xzz" = (SeedKind.hex, jsHexDecode ("0xzz".data.drop 2))
  ∧ jsHexDecode ['z', 'z'] = [] := by
  refine ⟨hexSeed_silent_decode.1 "0xzz" (by decide), ?_⟩
  exact hexSeed_silent_decode.2.1 'z' 'z' [] (Or.inl (by decide))

/-- C5 witness: a wrong-case query resolves on the demo IDL, and a
missing name yields the enumerating error message. -/
theorem accountLookup_witness :
    (∃ acc, fetchAccountData_lookup demoIdl5 "smartwalletconfig" = Except.ok acc ∧
      jsToLower acc.name = jsToLower "smartwalletconfig")
  ∧ (∃ msg, fetchAccountData_lookup demoIdl5 "Missing" = Except.error msg ∧
      ∀ acc, acc ∈ demoIdl5.accounts.getD [] → acc.name.data <:+: msg.data) := by
  constructor
  · exact (accountLookup_caseInsensitive_and_enumerates.1 demoIdl5
      "smartwalletconfig").1
      ⟨{ name := "SmartWalletConfig", fields := none }, by decide, by decide⟩
  · exact (accountLookup_caseInsensitive_and_enumerates.1 demoIdl5 "Missing").2
      (by decide)

/-- C6 witness: the matching record survives a one-filter query. -/
theorem filterByFields_witness :
    demoEntry ∈ filterAccounts [demoEntry] [demoFilter] := by
  refine (filterByFields_conjunction.1 [demoEntry] [demoFilter] demoEntry).mpr
    ⟨List.mem_singleton.mpr rfl, ?_⟩
  intro f hf
  rw [List.mem_singleton.mp hf]
  rfl

/-- C9 witness: the amended array rule at nonzero length 3, and the
default at an unrecognized tag. -/
theorem getFieldSize_witness :
    getFieldSize (FieldTy.array (FieldTy.prim "u16") 3) = 6
  ∧ getFieldSize (FieldTy.prim "madeUpTag") = 8 := by
  constructor
  · rw [getFieldSize_table.2.2.2.2.1 (FieldTy.prim "u16") 3 (by decide)]
    decide
  · exact getFieldSize_table.2.2.2.2.2.2.1 "madeUpTag" (by decide)

/-- C10 witness: a filter naming an absent field matches nothing. -/
theorem filter_missingField_witness :
    matchesFilter [("owner", JsVal.str "alice")]
      { field := "ghost", value := FilterVal.str "x" } = false := by
  exact filter_missingField_excluded.1 [("owner", JsVal.str "alice")]
    { field := "ghost", value := FilterVal.str "x" } (by rfl)
